import Mathlib

/-!
# A shallow embedding of the `hj` package (HTTP+JSON handler adapter)

This file models, in Lean, the Go package `hj`:

* `Handler` (hj.go): one-time reflection over a wrapped function's type,
  classifying its parameter/return shape and building a `jsonHandler`.
* `jsonHandler.ServeHTTP` (hj.go): the per-request pipeline
  (method check, Content-Type check, JSON decode, invoke, error check,
  encode / no-content), together with its local `handleErr` closure.
* The error types of err.go (`ErrNotPost`, `ErrNotJSON`, `ErrDecode`,
  `ErrEncode`, `CodeErr`) with their `Error`, `As` and `Respond` methods,
  and the `Responder` interface.
* `Request` / `Response` (hj.go): the context-carrier accessors.

External collaborators are modelled at their boundary:

* `mime.ParseMediaType` from the Go standard library (media-type parsing,
  used by the Content-Type check), including its behaviour of returning
  the parsed media type together with an error when only the parameters
  are malformed (ErrInvalidMediaParameter).  The RFC 2231 continuation
  ("starred" parameter) machinery is not modelled; none of the headers in
  this development use it.
* `encoding/json`'s `Decoder.Decode` with `UseNumber()`: a JSON parser
  that reads exactly one JSON value from the front of the body, leaves
  the remaining bytes unread, and represents numbers by their literal
  text (arbitrary precision preserved), matching `json.Number`.
* `net/http`'s `http.Error` and the response-writer state machine
  (headers are frozen once the status is written; the first `Write`
  commits status 200).

Machine integers do not matter here (status codes are small naturals);
strings are Lean `String`s over the bytes the Go code manipulates.
-/

/-! ## Go types, as seen by `reflect` in `hj.Handler` -/

/-- A Go type as far as `hj.Handler` inspects one: its identity and whether
it implements `context.Context` resp. `error` (the two interface checks the
code performs). -/
structure GoType where
  name : String
  implementsContext : Bool
  implementsError : Bool
deriving DecidableEq, Repr

/-- The `reflect.Type` of the wrapped value: whether it is a function,
whether it is variadic, and its parameter and result types. -/
structure FuncType where
  kindIsFunc : Bool
  isVariadic : Bool
  params : List GoType
  results : List GoType
deriving DecidableEq, Repr

/-! ## JSON values (`encoding/json` with `UseNumber`) -/

/-- A decoded JSON value.  Numbers keep their literal text, which is the
semantics of `json.Decoder.UseNumber` (`json.Number` is the literal
string). -/
inductive JsonVal where
  | null : JsonVal
  | boolean (b : Bool) : JsonVal
  | num (lit : String) : JsonVal
  | str (s : String) : JsonVal
  | arr (elems : List JsonVal) : JsonVal
  | obj (members : List (String × JsonVal)) : JsonVal

/-! ## Requests, contexts and the response writer -/

/-- The data of an `*http.Request` that the package reads: method, the
`Content-Type` header (`none` when absent) and the body bytes. -/
structure ReqData where
  method : String
  contentType : Option String
  body : String

/-- Context keys: the package's two private keys (`reqKey{}`, `respKey{}`)
and arbitrary foreign keys. -/
inductive CtxKey where
  | reqK : CtxKey
  | respK : CtxKey
  | otherK (n : Nat) : CtxKey
deriving DecidableEq

/-- Context values: the request object stored under `reqKey{}`, the
response-writer handle (identified by a number) stored under `respKey{}`,
and foreign values. -/
inductive CtxVal where
  | reqV (r : ReqData) : CtxVal
  | respV (wid : Nat) : CtxVal
  | otherV (n : Nat) : CtxVal

/-- A `context.Context` as a chain of `WithValue` wrappings: the head is
the outermost wrapping, which `Value` consults first. -/
abbrev Context := List (CtxKey × CtxVal)

/-- `ctx.Value(k)`: first value stored under `k`, outermost wrapping
first. -/
def ctxValue (ctx : Context) (k : CtxKey) : Option CtxVal :=
  match ctx with
  | [] => none
  | (k₂, v) :: rest => if k₂ = k then some v else ctxValue rest k

/-- An `*http.Request`: its data plus the context it carries
(`req.Context()`). -/
structure HttpRequest where
  method : String
  contentType : Option String
  body : String
  ctx : Context

/-- The request data of an `HttpRequest` (what the `reqKey{}` context
entry stores). -/
def HttpRequest.toData (r : HttpRequest) : ReqData :=
  { method := r.method, contentType := r.contentType, body := r.body }

/-- `Header.Get` semantics: the empty string when the header is absent. -/
def headerGet : Option String → String
  | none => ""
  | some s => s

/-- The observable state of an `http.ResponseWriter`: headers as they will
be sent, the committed status (none before `WriteHeader`), and the body
bytes written so far. -/
structure RespState where
  headers : List (String × String)
  status : Option Nat
  body : String
deriving DecidableEq, Repr

/-- The zero response state handed to `ServeHTTP` by the server. -/
def RespState.init : RespState := { headers := [], status := none, body := "" }

/-- Set a header, replacing any previous value for the same key.  Once the
status has been written the sent headers are frozen, so later sets do not
change the observable response. -/
def RespState.setHeader (w : RespState) (k v : String) : RespState :=
  if w.status.isSome then w
  else { w with headers := (k, v) :: w.headers.filter (fun p => ¬(p.1 = k)) }

/-- `WriteHeader`: only the first call commits a status. -/
def RespState.writeHeader (w : RespState) (code : Nat) : RespState :=
  if w.status.isSome then w else { w with status := some code }

/-- `Write`: an implicit `WriteHeader(200)` on first write, then append. -/
def RespState.write (w : RespState) (s : String) : RespState :=
  let w₂ := if w.status.isSome then w else { w with status := some 200 }
  { w₂ with body := w₂.body ++ s }

/-- Look a header up in the (to-be-sent) header set. -/
def RespState.getHeader (w : RespState) (k : String) : Option String :=
  (w.headers.find? (fun p => p.1 = k)).map (fun p => p.2)

/-- `http.StatusText` for the codes this development mentions (a
representative subset of net/http's table; unknown codes give `""`, as in
Go). -/
def statusText (code : Nat) : String :=
  if code = 200 then "OK"
  else if code = 204 then "No Content"
  else if code = 400 then "Bad Request"
  else if code = 404 then "Not Found"
  else if code = 500 then "Internal Server Error"
  else ""

/-! ## The error values of err.go -/

/-- The error values that can reach `handleErr`: the four leaf errors of
err.go, `CodeErr`, errors produced by the JSON codec (the `Err` field of
`ErrDecode`/`ErrEncode`), and arbitrary user-defined errors.  A user error
carries its message, optionally a `Respond` behaviour (status and body it
writes through `http.Error`-like calls — the `Responder` interface), and
optionally an `As`-to-`CodeErr` conversion result (the code-extraction
capability). -/
inductive GoError where
  | notPost (method : String) : GoError
  | notJSON (contentType : String) : GoError
  | errDecode (cause : GoError) : GoError
  | errEncode (cause : GoError) : GoError
  | codeErr (code : Nat) (cause : Option GoError) : GoError
  | jsonSyntax (msg : String) : GoError
  | custom (msg : String) (respondsWith : Option (Nat × String))
      (asCode : Option Nat) : GoError

/-- The `Error()` method of each error type, following err.go. -/
def errorString : GoError → String
  | .notPost m => "HTTP method is " ++ m ++ " but must be POST"
  | .notJSON ct => "request Content-Type is " ++ ct ++ ", want application/json"
  | .errDecode cause => "while decoding JSON request body: " ++ errorString cause
  | .errEncode cause => "while encoding JSON response: " ++ errorString cause
  | .codeErr c cause =>
      let s := "HTTP " ++ toString c
      let s := if statusText c = "" then s else s ++ ": " ++ statusText c
      match cause with
      | none => s
      | some e => s ++ ": " ++ errorString e
  | .jsonSyntax m => m
  | .custom m _ _ => m

/-- `net/http`'s `http.Error`: set the plain-text content type and the
nosniff header, write the status, write the message and a newline. -/
def httpError (w : RespState) (msg : String) (code : Nat) : RespState :=
  let w := w.setHeader "Content-Type" "text/plain; charset=utf-8"
  let w := w.setHeader "X-Content-Type-Options" "nosniff"
  let w := w.writeHeader code
  w.write (msg ++ "\n")

/-- The `Responder` interface check `err.(Responder)` together with the
behaviour of the `Respond` method: of the package's own error types only
`CodeErr` has a `Respond` method (err.go: `http.Error(w, c.Error(), c.C)`);
a user error has one exactly when it declares `respondsWith`, which writes
its status and body. -/
def responderOf : GoError → Option (RespState → RespState)
  | .codeErr c cause => some (fun w => httpError w (errorString (.codeErr c cause)) c)
  | .custom _ (some (s, b)) _ => some (fun w => (w.writeHeader s).write b)
  | _ => none

/-- The code-extraction capability: the result of probing the error (and
its cause chain) for a conversion to `CodeErr`, following the `As` methods
of err.go (each leaf error converts to `CodeErr{C: 400}`) and `errors.As`
(which matches a `CodeErr` directly). -/
def errAs : GoError → Option Nat
  | .notPost _ => some 400
  | .notJSON _ => some 400
  | .errDecode _ => some 400
  | .errEncode _ => some 400
  | .codeErr c _ => some c
  | .jsonSyntax _ => none
  | .custom _ _ a => a

/-! ## Signature classification: `hj.Handler` -/

/-- The values `reflect.Value.Call` passes to the wrapped function: the
adorned context (when the function takes one) and the decoded body (when
it declares a data parameter). -/
inductive ArgVal where
  | ctxArg (c : Context) : ArgVal
  | dataArg (v : JsonVal) : ArgVal

/-- The wrapped function `f`: its reflected type plus its behaviour.  The
behaviour consumes the argument list built by `ServeHTTP` and produces the
result slot (read when a result type is declared) and the error slot (read
when an error return is declared). -/
structure FuncVal where
  typ : FuncType
  run : List ArgVal → JsonVal × Option GoError

/-- The `jsonHandler` struct of hj.go: the classified signature, the
wrapped function's behaviour, and whether an `onError` callback was
supplied. -/
structure JsonHandler where
  hasCtx : Bool
  hasErr : Bool
  argType : Option GoType
  resultType : Option GoType
  run : List ArgVal → JsonVal × Option GoError
  hasOnError : Bool

/-- `hj.Handler`: one-time classification of the wrapped function's shape.
Go panics on a bad shape; the model returns `none` there.  Mirrors the two
`switch` statements of hj.go lines 278–321. -/
def Handler (f : FuncVal) (hasOnError : Bool) : Option JsonHandler :=
  if ¬f.typ.kindIsFunc then none           -- "non-function passed to hj.Handler"
  else if f.typ.isVariadic then none       -- "variadic function passed to hj.Handler"
  else
    match f.typ.params with
    | [] => handlerOut f hasOnError false none
    | [t] =>
        if t.implementsContext then handlerOut f hasOnError true none
        else handlerOut f hasOnError false (some t)
    | [t₁, t₂] =>
        if t₁.implementsContext then handlerOut f hasOnError true (some t₂)
        else none                          -- "two-arg function ... non-context first arg"
    | _ => none                            -- "%d-ary function passed to hj.Handler"
where
  handlerOut (f : FuncVal) (hasOnError : Bool) (hasCtx : Bool)
      (argType : Option GoType) : Option JsonHandler :=
    match f.typ.results with
    | [] => some { hasCtx := hasCtx, hasErr := false, argType := argType,
                   resultType := none, run := f.run, hasOnError := hasOnError }
    | [t] =>
        if t.implementsError then
          some { hasCtx := hasCtx, hasErr := true, argType := argType,
                 resultType := none, run := f.run, hasOnError := hasOnError }
        else
          some { hasCtx := hasCtx, hasErr := false, argType := argType,
                 resultType := some t, run := f.run, hasOnError := hasOnError }
    | [t₁, t₂] =>
        if t₂.implementsError then
          some { hasCtx := hasCtx, hasErr := true, argType := argType,
                 resultType := some t₁, run := f.run, hasOnError := hasOnError }
        else none                          -- "two-valued function ... non-error second value"
    | _ => none                            -- "%d-valued function passed to hj.Handler"

/-! ## `mime.ParseMediaType` (Go standard library, at the boundary)

Modelled from Go's mime/mediatype.go: the part before the first `;` is
trimmed and lowercased and checked to be `token` or `token/token`; the
remainder is parsed as `;`-separated `key=value` parameters.  A malformed
media type yields `("", error)`; a malformed parameter yields the parsed
media type together with the error (ErrInvalidMediaParameter); a duplicate
parameter name with a different value yields `("", error)`. -/

/-- ASCII whitespace as `unicode.IsSpace` sees it in header values. -/
def isHTTPSpace (c : Char) : Bool :=
  c = ' ' || c = '\t' || c = '\n' || c = '\x0b' || c = '\x0c' || c = '\r'

/-- `strings.TrimSpace` on a character list. -/
def trimSpace (cs : List Char) : List Char :=
  ((cs.dropWhile isHTTPSpace).reverse.dropWhile isHTTPSpace).reverse

/-- ASCII lowercasing (header values are ASCII). -/
def lowerChar (c : Char) : Char :=
  if 'A' ≤ c ∧ c ≤ 'Z' then Char.ofNat (c.toNat + 32) else c

/-- mime's `isTSpecialChar` (the characters of `"()<>@,;:\\\"/[]?="`). -/
def isTSpecialChar (c : Char) : Bool :=
  ['(', ')', '<', '>', '@', ',', ';', ':', '\\', '"', '/', '[', ']', '?', '='].contains c

/-- mime's `isTokenChar`. -/
def isTokenChar (c : Char) : Bool :=
  0x20 < c.toNat && c.toNat < 0x7f && !isTSpecialChar c

/-- mime's `consumeToken`: the longest token prefix and the rest. -/
def consumeToken (cs : List Char) : List Char × List Char :=
  cs.span isTokenChar

/-- mime's `checkMediaTypeDisposition`: `token` or `token/token`, nothing
after. -/
def checkMediaTypeDisposition (mt : List Char) : Bool :=
  let p := consumeToken mt
  if p.1 = [] then false
  else
    match p.2 with
    | [] => true
    | c :: rest =>
      if c = '/' then
        let q := consumeToken rest
        decide (¬(q.1 = []) ∧ q.2 = [])
      else false

/-- The quoted-string branch of mime's `consumeValue`: a backslash escapes
a following tspecial character, a bare backslash stands for itself, CR/LF
and a missing closing quote fail (returning the original input as `rest`
to signal failure). -/
def consumeQuoted : Nat → List Char → List Char → List Char → List Char × List Char
  | 0, _, _, orig => ([], orig)
  | Nat.succ fuel, acc, cs, orig =>
    match cs with
    | [] => ([], orig)
    | c :: rest =>
      if c = '"' then (acc.reverse, rest)
      else if c = '\r' || c = '\n' then ([], orig)
      else if c = '\\' then
        match rest with
        | c₂ :: rest₂ =>
          if isTSpecialChar c₂ then consumeQuoted fuel (c₂ :: acc) rest₂ orig
          else consumeQuoted fuel (c :: acc) (c₂ :: rest₂) orig
        | [] => ([], orig)
      else consumeQuoted fuel (c :: acc) rest orig

/-- mime's `consumeValue`: a token, or a quoted string. -/
def consumeValue (v : List Char) : List Char × List Char :=
  match v with
  | [] => ([], [])
  | c :: rest => if c = '"' then consumeQuoted (rest.length + 1) [] rest v else consumeToken v

/-- mime's `consumeMediaParam`: `;`, optional space, token key, `=`,
value.  `none` models Go's `("", "", v)` failure return. -/
def consumeMediaParam (v : List Char) : Option (List Char × List Char × List Char) :=
  match v.dropWhile isHTTPSpace with
  | [] => none
  | c :: rest =>
    if c = ';' then
      let rest₂ := rest.dropWhile isHTTPSpace
      let p := consumeToken rest₂
      let param := p.1.map lowerChar
      if param = [] then none
      else
        match p.2.dropWhile isHTTPSpace with
        | [] => none
        | c₂ :: rest₃ =>
          if c₂ = '=' then
            let rest₄ := rest₃.dropWhile isHTTPSpace
            let q := consumeValue rest₄
            if q.1 = [] ∧ q.2 = rest₄ then none
            else some (param, q.1, q.2)
          else none
    else none

/-- Result of the parameter loop in `mime.ParseMediaType`. -/
inductive ParamResult where
  | ok : ParamResult
  | invalid : ParamResult
  | dupName : ParamResult
deriving DecidableEq

/-- The parameter loop of `mime.ParseMediaType` (fuel-indexed; each
iteration consumes at least one character, so `length + 1` fuel is always
enough).  A lone trailing semicolon is ignored; a parse failure is
`invalid` (ErrInvalidMediaParameter); a duplicate name with a different
value is `dupName`. -/
def paramsLoop : Nat → List (List Char × List Char) → List Char → ParamResult
  | 0, _, _ => ParamResult.invalid
  | Nat.succ fuel, acc, v =>
    let v₂ := v.dropWhile isHTTPSpace
    if v₂ = [] then ParamResult.ok
    else
      match consumeMediaParam v₂ with
      | none => if trimSpace v₂ = [';'] then ParamResult.ok else ParamResult.invalid
      | some (key, value, rest) =>
        match acc.find? (fun p => p.1 = key) with
        | some p =>
          if p.2 = value then paramsLoop fuel acc rest else ParamResult.dupName
        | none => paramsLoop fuel ((key, value) :: acc) rest

/-- `mime.ParseMediaType`, as used by `ServeHTTP`: the lowercased media
type and an error flag.  On a malformed media type Go returns `""` with
the error; on a malformed parameter Go returns the media type together
with ErrInvalidMediaParameter; on a duplicate parameter name it returns
`""` with an error. -/
def parseMediaType (v : String) : String × Bool :=
  let cs := v.toList
  let base := cs.takeWhile (fun c => ¬(c = ';'))
  let mt := (trimSpace base).map lowerChar
  if ¬checkMediaTypeDisposition mt then ("", true)
  else
    let rest := cs.drop base.length
    match paramsLoop (rest.length + 1) [] rest with
    | ParamResult.ok => (String.mk mt, false)
    | ParamResult.invalid => (String.mk mt, true)
    | ParamResult.dupName => ("", true)

/-! ## The JSON codec (`encoding/json`, at the boundary)

`json.NewDecoder(body).Decode(...)` with `UseNumber()` reads exactly one
JSON value from the front of the stream and leaves everything after it
unread.  Numbers follow the JSON grammar with maximal munch (so a literal
that runs into a malformed continuation, such as `1e` at end of input, is
a syntax error, while `0` followed by `1` ends the value after `0`), and
are represented by their literal text (`json.Number`). -/

/-- Opening brace character (`\x7b`). -/
def lbrace : Char := Char.ofNat 123

/-- Closing brace character (`\x7d`). -/
def rbrace : Char := Char.ofNat 125

/-- JSON insignificant whitespace. -/
def isJSONWS (c : Char) : Bool :=
  c = ' ' || c = '\t' || c = '\n' || c = '\r'

/-- ASCII decimal digit. -/
def jsonDigit (c : Char) : Bool := '0' ≤ c && c ≤ '9'

/-- The longest digit prefix and the rest. -/
def spanDigits : List Char → List Char × List Char
  | [] => ([], [])
  | c :: cs =>
    if jsonDigit c then
      let p := spanDigits cs
      (c :: p.1, p.2)
    else ([], c :: cs)

/-- One or more digits, or failure. -/
def digits1 (cs : List Char) : Option (List Char × List Char) :=
  let p := spanDigits cs
  if p.1 = [] then none else some p

/-- Exponent part of a JSON number (after the mantissa): optional, but if
an `e`/`E` is present it must be followed by optional sign and at least
one digit, else the decoder reports a syntax error. -/
def numExp (sign mant : List Char) (cs : List Char) : Except String (JsonVal × List Char) :=
  match cs with
  | [] => Except.ok (JsonVal.num (String.mk (sign ++ mant)), [])
  | c :: rest =>
    if c = 'e' || c = 'E' then
      let p : List Char × List Char :=
        match rest with
        | c₂ :: rest₂ => if c₂ = '+' || c₂ = '-' then ([c₂], rest₂) else ([], rest)
        | [] => ([], rest)
      match digits1 p.2 with
      | some (ds, rest₃) =>
          Except.ok (JsonVal.num (String.mk (sign ++ mant ++ c :: (p.1 ++ ds))), rest₃)
      | none => Except.error "invalid character in exponent of numeric literal"
    else Except.ok (JsonVal.num (String.mk (sign ++ mant)), cs)

/-- Fraction part of a JSON number (after the integer part): optional,
but a `.` must be followed by at least one digit. -/
def numFrac (sign intPart : List Char) (cs : List Char) : Except String (JsonVal × List Char) :=
  match cs with
  | [] => numExp sign intPart []
  | c :: rest =>
    if c = '.' then
      match digits1 rest with
      | some (ds, rest₂) => numExp sign (intPart ++ c :: ds) rest₂
      | none => Except.error "invalid character after decimal point in numeric literal"
    else numExp sign intPart cs

/-- A JSON number starting at `cs` (first character is `-` or a digit):
optional sign, `0` or nonzero-led digits, optional fraction, optional
exponent.  A leading `0` is not followed by more integer digits (they end
the value, as in Go's scanner). -/
def parseNum (cs : List Char) : Except String (JsonVal × List Char) :=
  let p : List Char × List Char :=
    match cs with
    | c :: rest => if c = '-' then ([c], rest) else ([], cs)
    | [] => ([], cs)
  match p.2 with
  | [] => Except.error "unexpected end of JSON input"
  | c :: rest =>
    if c = '0' then numFrac p.1 [c] rest
    else if jsonDigit c then
      let q := spanDigits rest
      numFrac p.1 (c :: q.1) q.2
    else Except.error "invalid character in numeric literal"

/-- Hexadecimal digit. -/
def isHexDigit (c : Char) : Bool :=
  jsonDigit c || ('a' ≤ c && c ≤ 'f') || ('A' ≤ c && c ≤ 'F')

/-- Value of a hexadecimal digit. -/
def hexVal (c : Char) : Nat :=
  if jsonDigit c then c.toNat - '0'.toNat
  else if 'a' ≤ c && c ≤ 'f' then c.toNat - 'a'.toNat + 10
  else c.toNat - 'A'.toNat + 10

/-- Single-character string escapes. -/
def unescapeChar (c : Char) : Option Char :=
  if c = '"' then some '"'
  else if c = '\\' then some '\\'
  else if c = '/' then some '/'
  else if c = 'b' then some '\x08'
  else if c = 'f' then some '\x0c'
  else if c = 'n' then some '\n'
  else if c = 'r' then some '\r'
  else if c = 't' then some '\t'
  else none

/-- The body of a JSON string after the opening quote: ordinary
characters, escapes and `\u` escapes (surrogate pairing is not modelled;
the code unit becomes the character), terminated by an unescaped quote.
Control characters and malformed escapes are syntax errors.  Fuel-indexed
(every step consumes at least one character, so `length + 1` fuel always
suffices; exhausted fuel reports the same end-of-input error). -/
def parseStringBody : Nat → List Char → List Char → Except String (List Char × List Char)
  | 0, _, _ => Except.error "unexpected end of JSON string"
  | Nat.succ fuel, acc, cs =>
    match cs with
    | [] => Except.error "unexpected end of JSON string"
    | c :: rest =>
      if c = '"' then Except.ok (acc.reverse, rest)
      else if c = '\\' then
        match rest with
        | [] => Except.error "unexpected end of JSON string"
        | e :: rest₂ =>
          if e = 'u' then
            match rest₂ with
            | h₁ :: h₂ :: h₃ :: h₄ :: rest₃ =>
              if isHexDigit h₁ && isHexDigit h₂ && isHexDigit h₃ && isHexDigit h₄ then
                parseStringBody fuel
                  (Char.ofNat (((hexVal h₁ * 16 + hexVal h₂) * 16 + hexVal h₃) * 16 + hexVal h₄) :: acc)
                  rest₃
              else Except.error "invalid unicode escape in string literal"
            | _ => Except.error "invalid unicode escape in string literal"
          else
            match unescapeChar e with
            | some c₂ => parseStringBody fuel (c₂ :: acc) rest₂
            | none => Except.error "invalid escape in string literal"
      else if c.toNat < 32 then Except.error "invalid control character in string literal"
      else parseStringBody fuel (c :: acc) rest

/-- Strip an expected literal tail (for `null`, `true`, `false`). -/
def stripLit : List Char → List Char → Option (List Char)
  | [], cs => some cs
  | _ :: _, [] => none
  | l :: ls, c :: cs => if c = l then stripLit ls cs else none

mutual

/-- One JSON value from the front of the input, leaving the rest unread
(the semantics of `json.Decoder.Decode`); fuel-indexed, with every
recursive descent preceded by consuming at least one character, so
`length + 1` fuel always suffices. -/
def parseVal : Nat → List Char → Except String (JsonVal × List Char)
  | 0, _ => Except.error "JSON value nested too deeply"
  | Nat.succ fuel, cs =>
    match cs.dropWhile isJSONWS with
    | [] => Except.error "unexpected end of JSON input"
    | c :: rest =>
      if c = lbrace then
        match rest.dropWhile isJSONWS with
        | [] => Except.error "unexpected end of JSON input"
        | c₂ :: rest₂ =>
          if c₂ = rbrace then Except.ok (JsonVal.obj [], rest₂)
          else parseMembers fuel [] (c₂ :: rest₂)
      else if c = '[' then
        match rest.dropWhile isJSONWS with
        | [] => Except.error "unexpected end of JSON input"
        | c₂ :: rest₂ =>
          if c₂ = ']' then Except.ok (JsonVal.arr [], rest₂)
          else parseElems fuel [] (c₂ :: rest₂)
      else if c = '"' then
        match parseStringBody (rest.length + 1) [] rest with
        | Except.ok (s, rest₂) => Except.ok (JsonVal.str (String.mk s), rest₂)
        | Except.error m => Except.error m
      else if c = 't' then
        match stripLit ['r', 'u', 'e'] rest with
        | some rest₂ => Except.ok (JsonVal.boolean true, rest₂)
        | none => Except.error "invalid character in literal true"
      else if c = 'f' then
        match stripLit ['a', 'l', 's', 'e'] rest with
        | some rest₂ => Except.ok (JsonVal.boolean false, rest₂)
        | none => Except.error "invalid character in literal false"
      else if c = 'n' then
        match stripLit ['u', 'l', 'l'] rest with
        | some rest₂ => Except.ok (JsonVal.null, rest₂)
        | none => Except.error "invalid character in literal null"
      else if c = '-' || jsonDigit c then parseNum (c :: rest)
      else Except.error "invalid character looking for beginning of value"

/-- Members of a JSON object, entered at the first non-whitespace
character after `\x7b` (known not to be `\x7d`). -/
def parseMembers : Nat → List (String × JsonVal) → List Char → Except String (JsonVal × List Char)
  | 0, _, _ => Except.error "JSON value nested too deeply"
  | Nat.succ fuel, acc, cs =>
    match cs.dropWhile isJSONWS with
    | [] => Except.error "unexpected end of JSON input"
    | c :: rest =>
      if c = '"' then
        match parseStringBody (rest.length + 1) [] rest with
        | Except.error m => Except.error m
        | Except.ok (key, rest₂) =>
          match rest₂.dropWhile isJSONWS with
          | [] => Except.error "unexpected end of JSON input"
          | c₂ :: rest₃ =>
            if c₂ = ':' then
              match parseVal fuel rest₃ with
              | Except.error m => Except.error m
              | Except.ok (v, rest₄) =>
                let acc₂ := (String.mk key, v) :: acc
                match rest₄.dropWhile isJSONWS with
                | [] => Except.error "unexpected end of JSON input"
                | c₃ :: rest₅ =>
                  if c₃ = ',' then parseMembers fuel acc₂ rest₅
                  else if c₃ = rbrace then Except.ok (JsonVal.obj acc₂.reverse, rest₅)
                  else Except.error "invalid character after object key:value pair"
            else Except.error "invalid character after object key"
      else Except.error "invalid character looking for beginning of object key string"

/-- Elements of a JSON array, entered at the first non-whitespace
character after `[` (known not to be `]`). -/
def parseElems : Nat → List JsonVal → List Char → Except String (JsonVal × List Char)
  | 0, _, _ => Except.error "JSON value nested too deeply"
  | Nat.succ fuel, acc, cs =>
    match parseVal fuel cs with
    | Except.error m => Except.error m
    | Except.ok (v, rest) =>
      match rest.dropWhile isJSONWS with
      | [] => Except.error "unexpected end of JSON input"
      | c :: rest₂ =>
        if c = ',' then parseElems fuel (v :: acc) rest₂
        else if c = ']' then Except.ok (JsonVal.arr (v :: acc).reverse, rest₂)
        else Except.error "invalid character after array element"

end

/-- `dec.Decode` with `dec.UseNumber()` on the request body: one JSON
value off the front, the remaining bytes unread. -/
def decodeOneJson (s : String) : Except String (JsonVal × List Char) :=
  parseVal (s.length + 1) s.toList

/-- A JSON string literal: quotes plus minimal escaping. -/
def encodeStr (s : String) : String :=
  "\"" ++ String.join (s.toList.map (fun c =>
    if c = '"' then "\\\""
    else if c = '\\' then "\\\\"
    else if c = '\n' then "\\n"
    else if c = '\t' then "\\t"
    else if c = '\r' then "\\r"
    else String.mk [c])) ++ "\""

mutual

/-- `json.Marshal` on the values of this model (numbers marshal as their
literal text, which is `json.Number`'s behaviour; string escaping covers
the characters this development uses). -/
def encodeJson : JsonVal → String
  | JsonVal.null => "null"
  | JsonVal.boolean true => "true"
  | JsonVal.boolean false => "false"
  | JsonVal.num lit => lit
  | JsonVal.str s => encodeStr s
  | JsonVal.arr es => "[" ++ encodeElems es ++ "]"
  | JsonVal.obj ms => String.mk [lbrace] ++ encodeMembers ms ++ String.mk [rbrace]

/-- Comma-separated encoded array elements. -/
def encodeElems : List JsonVal → String
  | [] => ""
  | [v] => encodeJson v
  | v :: vs => encodeJson v ++ "," ++ encodeElems vs

/-- Comma-separated encoded object members. -/
def encodeMembers : List (String × JsonVal) → String
  | [] => ""
  | [(k, v)] => encodeStr k ++ ":" ++ encodeJson v
  | (k, v) :: ms => encodeStr k ++ ":" ++ encodeJson v ++ "," ++ encodeMembers ms

end

/-! ## The per-request pipeline: `jsonHandler.ServeHTTP` -/

/-- Observable events of one request, in order: the wrapped function call
(`h.fval.Call(args)`), the completion of response writing, and the
`onError` sink call. -/
inductive Event where
  | invoked (args : List ArgVal) : Event
  | wroteResponse : Event
  | sinkCalled (ctx : Context) (e : GoError) : Event

/-- The outcome of `ServeHTTP` on one request: the response-writer state,
the event trace, and the error (if any) that reached `handleErr`. -/
structure Outcome where
  resp : RespState
  events : List Event
  failure : Option GoError

/-- The adorned context built at the top of `ServeHTTP`:
`context.WithValue(ctx, reqKey{}, req)` then
`context.WithValue(ctx, respKey{}, w)` on top of `req.Context()`. -/
def mkCtx (wid : Nat) (req : HttpRequest) : Context :=
  (CtxKey.respK, CtxVal.respV wid) :: (CtxKey.reqK, CtxVal.reqV req.toData) :: req.ctx

/-- The `handleErr` closure of `ServeHTTP` (hj.go lines 339–349): if the
error implements `Responder`, its `Respond` method writes the response;
otherwise `http.Error(w, err.Error(), http.StatusInternalServerError)`;
then, when present, the `onError` sink is called with the adorned context
and the error. -/
def handleErr (h : JsonHandler) (ctx : Context) (w : RespState) (e : GoError)
    (pre : List Event) : Outcome :=
  let w₂ := match responderOf e with
    | some respond => respond w
    | none => httpError w (errorString e) 500
  { resp := w₂,
    events := pre ++ [Event.wroteResponse] ++
      (if h.hasOnError then [Event.sinkCalled ctx e] else []),
    failure := some e }

/-- The tail of `ServeHTTP` after the error check: status 204 with empty
body when no result type is declared, otherwise the JSON content type and
the encoded result (every `JsonVal` marshals, so the `ErrEncode` branch of
the source is unreachable in the model). -/
def successPhase (h : JsonHandler) (res : JsonVal) (pre : List Event) : Outcome :=
  match h.resultType with
  | none =>
    { resp := RespState.init.writeHeader 204,
      events := pre ++ [Event.wroteResponse], failure := none }
  | some _ =>
    let w := RespState.init.setHeader "Content-Type" "application/json; charset=utf-8"
    { resp := w.write (encodeJson res ++ "\n"),
      events := pre ++ [Event.wroteResponse], failure := none }

/-- `rv := h.fval.Call(args)` and the error check: when an error return is
declared and non-nil, `handleErr`; otherwise the success phase. -/
def invokePhase (h : JsonHandler) (ctx : Context) (args : List ArgVal) : Outcome :=
  let r := h.run args
  let pre := [Event.invoked args]
  if h.hasErr then
    match r.2 with
    | some e => handleErr h ctx RespState.init e pre
    | none => successPhase h r.1 pre
  else successPhase h r.1 pre

/-- `jsonHandler.ServeHTTP` (hj.go lines 334–402): adorn the context,
check the method, check the Content-Type, decode the body when a data
parameter is declared, invoke, error-check, respond.  `wid` identifies
the `http.ResponseWriter` handed in by the server. -/
def serveHTTP (h : JsonHandler) (wid : Nat) (req : HttpRequest) : Outcome :=
  let ctx := mkCtx wid req
  if ¬(req.method = "POST") then
    handleErr h ctx RespState.init (GoError.notPost req.method) []
  else
    let pm := parseMediaType (headerGet req.contentType)
    if pm.2 || ¬(pm.1 = "application/json") then
      handleErr h ctx RespState.init (GoError.notJSON pm.1) []
    else
      let ctxArgs := if h.hasCtx then [ArgVal.ctxArg ctx] else []
      match h.argType with
      | none => invokePhase h ctx ctxArgs
      | some _ =>
        match decodeOneJson req.body with
        | Except.error m =>
            handleErr h ctx RespState.init (GoError.errDecode (GoError.jsonSyntax m)) []
        | Except.ok (v, _) => invokePhase h ctx (ctxArgs ++ [ArgVal.dataArg v])

/-! ## The carrier accessors `Request` and `Response` -/

/-- `hj.Request`: the value stored under the private `reqKey{}`, or `nil`
when absent.  The key is private to the package and only ever holds the
request, so the source's type assertion cannot fail; the model returns
`none` for the unreachable mismatch. -/
def Request (ctx : Context) : Option ReqData :=
  match ctxValue ctx CtxKey.reqK with
  | none => none
  | some (CtxVal.reqV r) => some r
  | some _ => none

/-- `hj.Response`: the response-writer handle stored under the private
`respKey{}`, or `nil` when absent. -/
def Response (ctx : Context) : Option Nat :=
  match ctxValue ctx CtxKey.respK with
  | none => none
  | some (CtxVal.respV wid) => some wid
  | some _ => none

/-! ## Observation helpers used by the theorems -/

/-- The sink (`onError`) events of a trace. -/
def sinkEvents (es : List Event) : List Event :=
  es.filter (fun e => match e with | Event.sinkCalled _ _ => true | _ => false)

/-- The invocation events of a trace. -/
def invokedEvents (es : List Event) : List Event :=
  es.filter (fun e => match e with | Event.invoked _ => true | _ => false)

/-- Substring as a proposition (for "message contains ..." claims). -/
def StrContains (s sub : String) : Prop :=
  ∃ l r, s.toList = l ++ sub.toList ++ r

/-- Whether a context has an entry under the given key. -/
def hasCtxKey (ctx : Context) (k : CtxKey) : Bool :=
  match ctx with
  | [] => false
  | (k₂, _) :: rest => if k₂ = k then true else hasCtxKey rest k

/-! ## Spec-side signature classification (spec §4.1, for claim C2) -/

/-- Spec §4.1, parameter shapes: none; one (context or data); two with a
context first.  Anything else is construction-fatal. -/
def specValidParams : List GoType → Bool
  | [] => true
  | [_] => true
  | [t₁, _] => t₁.implementsContext
  | _ => false

/-- Spec §4.1, return shapes: none; one (error or result); two with an
error second.  Anything else is construction-fatal. -/
def specValidResults : List GoType → Bool
  | [] => true
  | [_] => true
  | [_, t₂] => t₂.implementsError
  | _ => false

/-- Spec §4.1: `hasContextParam`. -/
def specHasCtx : List GoType → Bool
  | [t] => t.implementsContext
  | [_, _] => true
  | _ => false

/-- Spec §4.1: the data parameter, if declared. -/
def specArgType : List GoType → Option GoType
  | [t] => if t.implementsContext then none else some t
  | [_, t₂] => some t₂
  | _ => none

/-- Spec §4.1: `hasErrorReturn` (for shapes that pass validation). -/
def specHasErr : List GoType → Bool
  | [t] => t.implementsError
  | [_, _] => true
  | _ => false

/-- Spec §4.1: the declared result, if any (for shapes that pass
validation). -/
def specResultType : List GoType → Option GoType
  | [t] => if t.implementsError then none else some t
  | [t₁, _] => some t₁
  | _ => none

/-! ## Concrete fixtures used by witnesses and counterexamples -/

/-- A type implementing `context.Context`. -/
def tCtx : GoType := { name := "context.Context", implementsContext := true, implementsError := false }

/-- A type implementing `error`. -/
def tErr : GoType := { name := "error", implementsContext := false, implementsError := true }

/-- A plain data type used as the request argument. -/
def tIn : GoType := { name := "inType", implementsContext := false, implementsError := false }

/-- A plain data type used as the result. -/
def tOut : GoType := { name := "outType", implementsContext := false, implementsError := false }

/-- Echo behaviour: return the data argument (or null) and no error. -/
def echoRun : List ArgVal → JsonVal × Option GoError := fun args =>
  (match args.reverse with
   | ArgVal.dataArg v :: _ => v
   | _ => JsonVal.null, none)

/-- The reflected shape `func(context.Context, inType) (outType, error)`
with echo behaviour. -/
def echoFn : FuncVal :=
  { typ := { kindIsFunc := true, isVariadic := false,
             params := [tCtx, tIn], results := [tOut, tErr] },
    run := echoRun }

/-- The adapter `Handler` builds for `echoFn` with an error sink. -/
def hEcho : JsonHandler :=
  { hasCtx := true, hasErr := true, argType := some tIn, resultType := some tOut,
    run := echoRun, hasOnError := true }

/-- An adapter for `func() error` (no parameters, error-only return),
with an error sink. -/
def hNoResult : JsonHandler :=
  { hasCtx := false, hasErr := true, argType := none, resultType := none,
    run := fun _ => (JsonVal.null, none), hasOnError := true }

/-- A GET request with a JSON Content-Type. -/
def reqGET : HttpRequest :=
  { method := "GET", contentType := some "application/json", body := "", ctx := [] }

/-- A well-formed POST echo request (`\x7b"a":1\x7d` body). -/
def reqEcho : HttpRequest :=
  { method := "POST", contentType := some "application/json; charset=utf-8",
    body := "\x7b\"a\":1\x7d", ctx := [] }

/-- A POST request with a plain-text Content-Type. -/
def reqTextPlain : HttpRequest :=
  { method := "POST", contentType := some "text/plain", body := "null", ctx := [] }

/-- A POST request whose Content-Type has a malformed parameter after a
well-formed `application/json` media type. -/
def reqBadParam : HttpRequest :=
  { method := "POST", contentType := some "application/json; foo", body := "null", ctx := [] }

/-- A POST request with no Content-Type header at all. -/
def reqNoCT : HttpRequest :=
  { method := "POST", contentType := none, body := "null", ctx := [] }

/-- An adapter whose function returns `CodeErr\x7bC: 404\x7d`. -/
def hCodeErr : JsonHandler :=
  { hasCtx := false, hasErr := true, argType := none, resultType := some tOut,
    run := fun _ => (JsonVal.null, some (GoError.codeErr 404 none)), hasOnError := false }

/-- A plain POST request with a JSON Content-Type and empty body. -/
def reqPlainJSON : HttpRequest :=
  { method := "POST", contentType := some "application/json", body := "", ctx := [] }

/-- Any context value among the function's call arguments is the given
one (spec: the carrier-wrapped context is what the function receives). -/
def ctxArgsOnly (ctx : Context) (args : List ArgVal) : Prop :=
  ∀ c, ArgVal.ctxArg c ∈ args → c = ctx

/-- A POST echo request whose body is a 30-digit integer literal. -/
def reqBigNum : HttpRequest :=
  { method := "POST", contentType := some "application/json",
    body := "123456789012345678901234567890", ctx := [] }

/-- A POST request with a truncated JSON body (`\x7b`). -/
def reqBadJSON : HttpRequest :=
  { method := "POST", contentType := some "application/json", body := "\x7b", ctx := [] }

/-- A POST request whose body is the complete document `1` followed by
the trailing byte `e`. -/
def reqOneE : HttpRequest :=
  { method := "POST", contentType := some "application/json", body := "1e", ctx := [] }

/-- A POST request whose body is a complete JSON object followed by
arbitrary trailing bytes. -/
def reqObjTrailing : HttpRequest :=
  { method := "POST", contentType := some "application/json",
    body := "\x7b\"a\":1\x7dxyz", ctx := [] }

/-! ## Theorems -/

/-- C2: Adapter construction succeeds, with the correctly classified
signature, for exactly the 4 parameter shapes (none; context only; data
only; context then data) crossed with the 4 return shapes (none; error
only; result only; result then error); for any other callable shape
(non-function, variadic, more than 2 parameters or returns, 2 parameters
with a non-context first, 2 returns with a non-error second) construction
fails (panics, modelled as `none`). -/
theorem handler_shape_classification (f : FuncVal) (onErr : Bool) :
    Handler f onErr =
      if (f.typ.kindIsFunc && !f.typ.isVariadic &&
          specValidParams f.typ.params && specValidResults f.typ.results) = true then
        some { hasCtx := specHasCtx f.typ.params,
               hasErr := specHasErr f.typ.results,
               argType := specArgType f.typ.params,
               resultType := specResultType f.typ.results,
               run := f.run, hasOnError := onErr }
      else none := by
  obtain ⟨⟨kf, vr, ps, rs⟩, run⟩ := f
  cases kf <;> cases vr <;>
    simp only [Handler, Bool.false_and, Bool.true_and, Bool.and_false, Bool.and_true,
      Bool.not_false, Bool.not_true, if_false, if_true, reduceIte, Bool.false_eq_true,
      not_true, not_false_iff] <;>
    try rfl
  rcases ps with _ | ⟨t₁, _ | ⟨t₂, _ | tl⟩⟩ <;>
    rcases rs with _ | ⟨u₁, _ | ⟨u₂, _ | ul⟩⟩ <;>
    simp only [Handler.handlerOut, specValidParams, specValidResults, specHasCtx,
      specArgType, specHasErr, specResultType, Bool.true_and, Bool.and_true,
      Bool.false_and, Bool.and_false] <;>
    first
    | rfl
    | (cases h₁ : t₁.implementsContext <;> cases h₂ : u₁.implementsError <;>
        simp [h₁, h₂])
    | (cases h₁ : t₁.implementsContext <;> cases h₂ : u₂.implementsError <;>
        simp [h₁, h₂])
    | (cases h₁ : t₁.implementsContext <;> simp [h₁])
    | (cases h₂ : u₁.implementsError <;> simp [h₂])
    | (cases h₂ : u₂.implementsError <;> simp [h₂])

/-! ## Helper lemmas about the pipeline -/

/-- `hEcho` really is what construction produces for `echoFn`. -/
theorem hEcho_constructed : Handler echoFn true = some hEcho := rfl


theorem strToList_append (a b : String) : (a ++ b).toList = a.toList ++ b.toList := rfl

theorem strContains_mk (s sub : String) (l r : List Char)
    (h : s.toList = l ++ sub.toList ++ r) : StrContains s sub := ⟨l, r, h⟩

theorem handleErr_failure (h : JsonHandler) (ctx : Context) (w : RespState)
    (e : GoError) (pre : List Event) : (handleErr h ctx w e pre).failure = some e := rfl

theorem handleErr_resp (h : JsonHandler) (ctx : Context) (w : RespState)
    (e : GoError) (pre : List Event) :
    (handleErr h ctx w e pre).resp =
      match responderOf e with
      | some respond => respond w
      | none => httpError w (errorString e) 500 := rfl

theorem handleErr_events (h : JsonHandler) (ctx : Context) (w : RespState)
    (e : GoError) (pre : List Event) :
    (handleErr h ctx w e pre).events =
      pre ++ [Event.wroteResponse] ++
        (if h.hasOnError then [Event.sinkCalled ctx e] else []) := rfl

theorem httpError_init (msg : String) (code : Nat) :
    httpError RespState.init msg code =
      { headers := [("X-Content-Type-Options", "nosniff"),
                    ("Content-Type", "text/plain; charset=utf-8")],
        status := some code, body := msg ++ "\n" } := rfl

/-- `ServeHTTP` on a non-POST request is exactly the `handleErr` path on
`ErrNotPost`. -/
theorem serveHTTP_notPost (h : JsonHandler) (wid : Nat) (req : HttpRequest)
    (hm : ¬(req.method = "POST")) :
    serveHTTP h wid req =
      handleErr h (mkCtx wid req) RespState.init (GoError.notPost req.method) [] := by
  simp [serveHTTP, hm]

/-- `ServeHTTP` on a POST request whose Content-Type fails the check is
exactly the `handleErr` path on `ErrNotJSON`. -/
theorem serveHTTP_badCT (h : JsonHandler) (wid : Nat) (req : HttpRequest)
    (hm : req.method = "POST")
    (hct : (parseMediaType (headerGet req.contentType)).2 = true ∨
           ¬((parseMediaType (headerGet req.contentType)).1 = "application/json")) :
    serveHTTP h wid req =
      handleErr h (mkCtx wid req) RespState.init
        (GoError.notJSON (parseMediaType (headerGet req.contentType)).1) [] := by
  rcases hct with hct | hct <;> simp [serveHTTP, hm, hct]

/-- `ServeHTTP` on a POST request with a passing Content-Type: decode if
a data parameter is declared, then invoke. -/
theorem serveHTTP_postJSON (h : JsonHandler) (wid : Nat) (req : HttpRequest)
    (hm : req.method = "POST")
    (hct : parseMediaType (headerGet req.contentType) = ("application/json", false)) :
    serveHTTP h wid req =
      match h.argType with
      | none => invokePhase h (mkCtx wid req)
          (if h.hasCtx then [ArgVal.ctxArg (mkCtx wid req)] else [])
      | some _ =>
        match decodeOneJson req.body with
        | Except.error m =>
            handleErr h (mkCtx wid req) RespState.init
              (GoError.errDecode (GoError.jsonSyntax m)) []
        | Except.ok (v, _) => invokePhase h (mkCtx wid req)
            ((if h.hasCtx then [ArgVal.ctxArg (mkCtx wid req)] else []) ++
              [ArgVal.dataArg v]) := by
  simp [serveHTTP, hm, hct]

/-! ## Claim C3 -/

/-- C3 (amended): for every request whose method is not POST (e.g. GET)
to any constructed adapter, the response has status 500 — not 400:
`ErrNotPost` has no `Respond` method, and the current `handleErr` writes
`http.StatusInternalServerError` for every non-`Responder` error — its
body message contains "must be POST", and the wrapped function is never
invoked. -/
theorem non_post_rejected (h : JsonHandler) (wid : Nat) (req : HttpRequest)
    (hm : ¬(req.method = "POST")) :
    (serveHTTP h wid req).resp.status = some 500 ∧
    StrContains (serveHTTP h wid req).resp.body "must be POST" ∧
    invokedEvents (serveHTTP h wid req).events = [] := by
  rw [serveHTTP_notPost h wid req hm]
  refine ⟨rfl, ?_, ?_⟩
  · apply strContains_mk _ _
      ("HTTP method is ".toList ++ req.method.toList ++ " but ".toList) "\n".toList
    show (errorString (GoError.notPost req.method) ++ "\n").toList = _
    simp only [errorString, strToList_append, List.append_assoc]
    congr 1
  · cases hOE : h.hasOnError <;>
      simp [handleErr, invokedEvents, hOE]

/-- C3 counterexample: a GET request to a constructed adapter is answered
with status 500, not status 400 as the claim states. -/
theorem non_post_rejected_cex :
    (serveHTTP hNoResult 0 reqGET).resp.status = some 500 ∧
    ¬((serveHTTP hNoResult 0 reqGET).resp.status = some 400) := by
  exact ⟨rfl, by decide⟩

/-- C3 witness: the amended claim at the concrete GET request. -/
theorem non_post_rejected_witness :
    (serveHTTP hNoResult 0 reqGET).resp.status = some 500 ∧
    StrContains (serveHTTP hNoResult 0 reqGET).resp.body "must be POST" ∧
    invokedEvents (serveHTTP hNoResult 0 reqGET).events = [] :=
  non_post_rejected hNoResult 0 reqGET (by decide)

/-! ## Claim C4 -/

/-- C4 (amended): for every POST request, the Content-Type header's media
type is parsed with its parameters ignored and must equal
`application/json` exactly; otherwise (e.g. `text/plain`) the response
has status 500 — not 400: `ErrNotJSON` has no `Respond` method and the
current `handleErr` resolves every non-`Responder` error to 500 — with a
message containing "want application/json" and without invoking the
function; and a Content-Type of `application/json` plus a charset
parameter passes the check. -/
theorem content_type_check :
    (∀ (h : JsonHandler) (wid : Nat) (req : HttpRequest),
      req.method = "POST" →
      ((parseMediaType (headerGet req.contentType)).2 = true ∨
        ¬((parseMediaType (headerGet req.contentType)).1 = "application/json")) →
      (serveHTTP h wid req).resp.status = some 500 ∧
      StrContains (serveHTTP h wid req).resp.body "want application/json" ∧
      invokedEvents (serveHTTP h wid req).events = []) ∧
    parseMediaType "application/json; charset=utf-8" = ("application/json", false) := by
  constructor
  · intro h wid req hm hct
    rw [serveHTTP_badCT h wid req hm hct]
    generalize (parseMediaType (headerGet req.contentType)).1 = ct
    refine ⟨rfl, ?_, ?_⟩
    · apply strContains_mk _ _
        ("request Content-Type is ".toList ++ ct.toList ++ ", ".toList) "\n".toList
      show (errorString (GoError.notJSON ct) ++ "\n").toList = _
      simp only [errorString, strToList_append, List.append_assoc]
      congr 1
    · cases hOE : h.hasOnError <;> simp [handleErr, invokedEvents, hOE]
  · rfl

/-- C4 counterexample: POST with Content-Type `text/plain` is answered
with status 500, not status 400 as the claim states. -/
theorem content_type_check_cex :
    (serveHTTP hNoResult 0 reqTextPlain).resp.status = some 500 ∧
    ¬((serveHTTP hNoResult 0 reqTextPlain).resp.status = some 400) :=
  ⟨rfl, by decide⟩

/-- C4 witness: the amended claim at the concrete `text/plain` request,
plus the charset example. -/
theorem content_type_check_witness :
    ((serveHTTP hNoResult 0 reqTextPlain).resp.status = some 500 ∧
     StrContains (serveHTTP hNoResult 0 reqTextPlain).resp.body "want application/json" ∧
     invokedEvents (serveHTTP hNoResult 0 reqTextPlain).events = []) ∧
    parseMediaType "application/json; charset=utf-8" = ("application/json", false) :=
  ⟨content_type_check.1 hNoResult 0 reqTextPlain rfl (Or.inr (by decide)),
   content_type_check.2⟩

/-! ## Case analysis of the pipeline's terminal states -/

/-- `invokePhase` either fails through `handleErr` or succeeds through
`successPhase`, in both cases carrying the invocation event. -/
theorem invokePhase_cases (h : JsonHandler) (ctx : Context) (args : List ArgVal) :
    (∃ e, invokePhase h ctx args = handleErr h ctx RespState.init e [Event.invoked args]) ∨
    invokePhase h ctx args = successPhase h (h.run args).1 [Event.invoked args] := by
  cases hE : h.hasErr
  · exact Or.inr (by simp [invokePhase, hE])
  · cases hr : (h.run args).2 with
    | none => exact Or.inr (by simp [invokePhase, hE, hr])
    | some e => exact Or.inl ⟨e, by simp [invokePhase, hE, hr]⟩

/-- The argument lists `ServeHTTP` builds only ever carry the adorned
context. -/
theorem ctxArgsOnly_pipeline (ctx : Context) (b : Bool) (extra : List ArgVal)
    (hx : ∀ c, ¬(ArgVal.ctxArg c ∈ extra)) :
    ctxArgsOnly ctx ((if b then [ArgVal.ctxArg ctx] else []) ++ extra) := by
  intro c hc
  cases b <;> simp [List.mem_append] at hc
  · exact absurd hc (hx c)
  · rcases hc with hc | hc
    · exact hc
    · exact absurd hc (hx c)

/-- Every run of `ServeHTTP` ends in exactly one of the two terminal
forms: `handleErr` on some error (with an empty pre-trace or a single
invocation event), or `successPhase` on the value the wrapped function
returned for that invocation; any invocation event carries only the
adorned context. -/
theorem serveHTTP_cases (h : JsonHandler) (wid : Nat) (req : HttpRequest) :
    (∃ e pre, (pre = [] ∨ ∃ args, pre = [Event.invoked args] ∧
         ctxArgsOnly (mkCtx wid req) args) ∧
       serveHTTP h wid req = handleErr h (mkCtx wid req) RespState.init e pre) ∨
    (∃ args, ctxArgsOnly (mkCtx wid req) args ∧
       serveHTTP h wid req = successPhase h (h.run args).1 [Event.invoked args]) := by
  by_cases hm : req.method = "POST"
  · rcases hpm : parseMediaType (headerGet req.contentType) with ⟨ct, err⟩
    cases err
    · by_cases hj : ct = "application/json"
      · subst hj
        rw [serveHTTP_postJSON h wid req hm hpm]
        have hco₁ : ctxArgsOnly (mkCtx wid req)
            (if h.hasCtx then [ArgVal.ctxArg (mkCtx wid req)] else []) := by
          have := ctxArgsOnly_pipeline (mkCtx wid req) h.hasCtx [] (by simp)
          simpa using this
        cases harg : h.argType
        · rcases invokePhase_cases h (mkCtx wid req)
            (if h.hasCtx then [ArgVal.ctxArg (mkCtx wid req)] else []) with ⟨e, he⟩ | hr
          · exact Or.inl ⟨e, _, Or.inr ⟨_, rfl, hco₁⟩, he⟩
          · exact Or.inr ⟨_, hco₁, hr⟩
        · cases hdec : decodeOneJson req.body with
          | error m => exact Or.inl ⟨_, [], Or.inl rfl, rfl⟩
          | ok p =>
            have hco₂ : ctxArgsOnly (mkCtx wid req)
                ((if h.hasCtx then [ArgVal.ctxArg (mkCtx wid req)] else []) ++
                  [ArgVal.dataArg p.1]) :=
              ctxArgsOnly_pipeline (mkCtx wid req) h.hasCtx [ArgVal.dataArg p.1] (by simp)
            rcases invokePhase_cases h (mkCtx wid req)
              ((if h.hasCtx then [ArgVal.ctxArg (mkCtx wid req)] else []) ++
                [ArgVal.dataArg p.1]) with ⟨e, he⟩ | hr
            · exact Or.inl ⟨e, _, Or.inr ⟨_, rfl, hco₂⟩, he⟩
            · exact Or.inr ⟨_, hco₂, hr⟩
      · refine Or.inl ⟨_, [], Or.inl rfl, serveHTTP_badCT h wid req hm (Or.inr ?_)⟩
        rw [hpm]; exact hj
    · refine Or.inl ⟨_, [], Or.inl rfl, serveHTTP_badCT h wid req hm (Or.inl ?_)⟩
      rw [hpm]
  · exact Or.inl ⟨_, [], Or.inl rfl, serveHTTP_notPost h wid req hm⟩

/-! ## Claim C1 -/

/-- C1 (amended): for every error reaching ErrorHandling, if the error
implements `Responder` it is delegated the entire response; otherwise the
status is 500 with the error's message as a plain-text body.  The
CodeErr capability probe of the cause chain (the `As` methods of err.go)
is never consulted by the current `handleErr`. -/
theorem error_resolution (h : JsonHandler) (wid : Nat) (req : HttpRequest)
    (e : GoError) (hf : (serveHTTP h wid req).failure = some e) :
    (serveHTTP h wid req).resp =
      match responderOf e with
      | some respond => respond RespState.init
      | none => httpError RespState.init (errorString e) 500 := by
  rcases serveHTTP_cases h wid req with ⟨e₂, pre, _, heq⟩ | ⟨args, _, heq⟩
  · rw [heq] at hf ⊢
    have h₂ : e₂ = e := by simpa [handleErr] using hf
    subst h₂
    exact handleErr_resp h (mkCtx wid req) RespState.init e₂ pre
  · rw [heq] at hf
    cases hres : h.resultType <;> simp [successPhase, hres] at hf

/-- C1 counterexample: `ErrNotPost` converts to `CodeErr\x7bC: 400\x7d` via its
`As` method (the capability probe) and has no `Respond` method, yet the
pipeline answers 500, not 400: the probe is not consulted. -/
theorem error_resolution_cex :
    responderOf (GoError.notPost "GET") = none ∧
    errAs (GoError.notPost "GET") = some 400 ∧
    (serveHTTP hNoResult 0 reqGET).failure = some (GoError.notPost "GET") ∧
    (serveHTTP hNoResult 0 reqGET).resp.status = some 500 ∧
    ¬((serveHTTP hNoResult 0 reqGET).resp.status = some 400) :=
  ⟨rfl, rfl, rfl, rfl, by decide⟩

/-- C1 witness: the amended claim at a request whose function returns
`CodeErr\x7bC: 404\x7d` (a `Responder`, so the response is delegated to its
`Respond` method). -/
theorem error_resolution_witness :
    (serveHTTP hCodeErr 0 reqPlainJSON).resp =
      match responderOf (GoError.codeErr 404 none) with
      | some respond => respond RespState.init
      | none => httpError RespState.init (errorString (GoError.codeErr 404 none)) 500 :=
  error_resolution hCodeErr 0 reqPlainJSON (GoError.codeErr 404 none) rfl

/-! ## Claim C5 -/

/-- C5: on success the response is determined solely by the signature's
return shape: a declared result gives status 200 with
`Content-Type: application/json; charset=utf-8` and, as the body, the
JSON serialization of the value the wrapped function returned for that
request's recorded invocation (plus the encoder's newline); no declared
result gives status 204 with an empty body — independent of whether an
error return is declared (the theorem quantifies over every adapter,
whatever its `hasErr`). -/
theorem success_response (h : JsonHandler) (wid : Nat) (req : HttpRequest)
    (hs : (serveHTTP h wid req).failure = none) :
    (h.resultType = none →
       (serveHTTP h wid req).resp.status = some 204 ∧
       (serveHTTP h wid req).resp.body = "") ∧
    (∀ t, h.resultType = some t →
       (serveHTTP h wid req).resp.status = some 200 ∧
       (serveHTTP h wid req).resp.getHeader "Content-Type" =
         some "application/json; charset=utf-8" ∧
       ∃ args, invokedEvents (serveHTTP h wid req).events = [Event.invoked args] ∧
         (serveHTTP h wid req).resp.body = encodeJson (h.run args).1 ++ "\n") := by
  rcases serveHTTP_cases h wid req with ⟨e₂, pre, _, heq⟩ | ⟨args, _, heq⟩ <;>
    rw [heq] at hs ⊢
  · simp [handleErr] at hs
  · constructor
    · intro hres
      simp [successPhase, hres, RespState.writeHeader, RespState.init]
    · intro t hres
      refine ⟨?_, ?_, args, ?_, ?_⟩ <;>
        simp [successPhase, hres, RespState.write, RespState.setHeader,
          RespState.init, RespState.getHeader, invokedEvents]

/-- C5 witness: the concrete echo request answers 200 with the JSON
content type and the serialization of the echoed value — concretely, the
body literally equals `\x7b"a":1\x7d` plus newline — and the concrete
no-result adapter answers 204 with an empty body. -/
theorem success_response_witness :
    ((serveHTTP hNoResult 0 reqPlainJSON).resp.status = some 204 ∧
     (serveHTTP hNoResult 0 reqPlainJSON).resp.body = "") ∧
    ((serveHTTP hEcho 0 reqEcho).resp.status = some 200 ∧
     (serveHTTP hEcho 0 reqEcho).resp.getHeader "Content-Type" =
       some "application/json; charset=utf-8" ∧
     ∃ args, invokedEvents (serveHTTP hEcho 0 reqEcho).events = [Event.invoked args] ∧
       (serveHTTP hEcho 0 reqEcho).resp.body = encodeJson (hEcho.run args).1 ++ "\n") ∧
    (serveHTTP hEcho 0 reqEcho).resp.body = "\x7b\"a\":1\x7d\n" :=
  ⟨(success_response hNoResult 0 reqPlainJSON rfl).1 rfl,
   (success_response hEcho 0 reqEcho rfl).2 tOut rfl,
   rfl⟩

/-! ## Claim C7 -/

/-- C7: with an error sink present, the sink is invoked exactly once if
the request fails — and that invocation comes strictly after the response
has been written (the trace ends `[wroteResponse, sinkCalled]`) — and
never if the request succeeds. -/
theorem sink_once_after_write (h : JsonHandler) (wid : Nat) (req : HttpRequest)
    (hsink : h.hasOnError = true) :
    ((serveHTTP h wid req).failure = none →
       sinkEvents (serveHTTP h wid req).events = []) ∧
    (∀ e, (serveHTTP h wid req).failure = some e →
       sinkEvents (serveHTTP h wid req).events =
         [Event.sinkCalled (mkCtx wid req) e] ∧
       ∃ pre, sinkEvents pre = [] ∧
         (serveHTTP h wid req).events =
           pre ++ [Event.wroteResponse, Event.sinkCalled (mkCtx wid req) e]) := by
  rcases serveHTTP_cases h wid req with ⟨e₂, pre, hpre, heq⟩ | ⟨args, _, heq⟩ <;>
    rw [heq]
  · constructor
    · intro hf
      simp [handleErr] at hf
    · intro e hf
      have h₂ : e₂ = e := by simpa [handleErr] using hf
      subst h₂
      have hpre₂ : sinkEvents pre = [] := by
        rcases hpre with rfl | ⟨args, rfl, _⟩ <;> simp [sinkEvents]
      refine ⟨?_, pre, hpre₂, ?_⟩
      · simp only [sinkEvents] at hpre₂
        simp [handleErr, hsink, sinkEvents, List.filter_append, hpre₂]
      · simp [handleErr, hsink]
  · constructor
    · intro _
      cases hres : h.resultType <;>
        simp [successPhase, hres, sinkEvents, List.filter_append]
    · intro e hf
      cases hres : h.resultType <;> simp [successPhase, hres] at hf

/-- C7 witness: at the concrete failing GET request the sink fires once,
after the response was written; nothing more to check on the success side
beyond the theorem itself. -/
theorem sink_once_after_write_witness :
    sinkEvents (serveHTTP hNoResult 1 reqGET).events =
      [Event.sinkCalled (mkCtx 1 reqGET) (GoError.notPost "GET")] ∧
    ∃ pre, sinkEvents pre = [] ∧
      (serveHTTP hNoResult 1 reqGET).events =
        pre ++ [Event.wroteResponse, Event.sinkCalled (mkCtx 1 reqGET) (GoError.notPost "GET")] :=
  (sink_once_after_write hNoResult 1 reqGET rfl).2 (GoError.notPost "GET") rfl

/-! ## Number literals survive decoding (for claim C6) -/

theorem spanDigits_append (cs : List Char) :
    (spanDigits cs).1 ++ (spanDigits cs).2 = cs := by
  induction cs with
  | nil => rfl
  | cons c cs ih => by_cases hc : jsonDigit c = true <;> simp [spanDigits, hc, ih]

theorem spanDigits_all (cs : List Char) (h : ∀ d ∈ cs, jsonDigit d = true) :
    spanDigits cs = (cs, []) := by
  induction cs with
  | nil => rfl
  | cons c cs ih =>
    have hc : jsonDigit c = true := h c (by simp)
    simp [spanDigits, hc, ih (fun d hd => h d (by simp [hd]))]

/-- Decoding a digit-string literal (of any length) yields `JsonVal.num`
holding exactly that literal: `UseNumber` keeps arbitrary-precision
integers intact instead of collapsing them to floats. -/
theorem parseNum_digits (c : Char) (cs : List Char)
    (hc : jsonDigit c = true) (h0 : ¬(c = '0')) (hcs : ∀ d ∈ cs, jsonDigit d = true) :
    parseNum (c :: cs) = Except.ok (JsonVal.num (String.mk (c :: cs)), []) := by
  have hminus : ¬(c = '-') := by
    intro heq
    subst heq
    simp [jsonDigit] at hc
  simp [parseNum, hminus, h0, hc, spanDigits_all cs hcs, numFrac, numExp]

/-- The invocation event of `invokePhase` is exactly the supplied
argument list, on both the error and the success continuation. -/
theorem invokePhase_invoked (h : JsonHandler) (ctx : Context) (args : List ArgVal) :
    invokedEvents (invokePhase h ctx args).events = [Event.invoked args] := by
  rcases invokePhase_cases h ctx args with ⟨e, heq⟩ | heq <;> rw [heq]
  · cases hOE : h.hasOnError <;> simp [handleErr, hOE, invokedEvents]
  · cases hres : h.resultType <;> simp [successPhase, hres, invokedEvents]

/-! ## Claim C6 -/

/-- C6: body decoding happens if and only if the signature declares a
data parameter: with no data parameter the function is invoked without a
data argument whatever the body holds; with one, a decodable body leads
to invocation with the decoded value and a decode failure produces
`ErrDecode` wrapping the codec's error as its cause without invoking the
function.  Decoding uses the `UseNumber` mode: a digit-string body of any
length decodes to `JsonVal.num` holding exactly that literal, and the
literal marshals back unchanged. -/
theorem decode_iff_data_param (h : JsonHandler) (wid : Nat) (req : HttpRequest)
    (hm : req.method = "POST")
    (hct : parseMediaType (headerGet req.contentType) = ("application/json", false)) :
    (h.argType = none →
       invokedEvents (serveHTTP h wid req).events =
         [Event.invoked (if h.hasCtx then [ArgVal.ctxArg (mkCtx wid req)] else [])]) ∧
    (∀ t, h.argType = some t →
       (∀ v rest, decodeOneJson req.body = Except.ok (v, rest) →
          invokedEvents (serveHTTP h wid req).events =
            [Event.invoked ((if h.hasCtx then [ArgVal.ctxArg (mkCtx wid req)] else []) ++
              [ArgVal.dataArg v])]) ∧
       (∀ m, decodeOneJson req.body = Except.error m →
          (serveHTTP h wid req).failure =
            some (GoError.errDecode (GoError.jsonSyntax m)) ∧
          invokedEvents (serveHTTP h wid req).events = [])) ∧
    (∀ (c : Char) (cs : List Char), jsonDigit c = true → ¬(c = '0') →
       (∀ d ∈ cs, jsonDigit d = true) →
       decodeOneJson (String.mk (c :: cs)) =
         Except.ok (JsonVal.num (String.mk (c :: cs)), []) ∧
       encodeJson (JsonVal.num (String.mk (c :: cs))) = String.mk (c :: cs)) := by
  rw [serveHTTP_postJSON h wid req hm hct]
  refine ⟨?_, ?_, ?_⟩
  · intro harg
    rw [harg]
    exact invokePhase_invoked h (mkCtx wid req) _
  · intro t harg
    rw [harg]
    constructor
    · intro v rest hdec
      rw [hdec]
      exact invokePhase_invoked h (mkCtx wid req) _
    · intro m hdec
      rw [hdec]
      exact ⟨rfl, by cases hOE : h.hasOnError <;> simp [handleErr, hOE, invokedEvents]⟩
  · intro c cs hc h0 hcs
    constructor
    · have hcb : '0' ≤ c ∧ c ≤ '9' := by
        simpa [jsonDigit, Bool.and_eq_true, decide_eq_true_eq] using hc
      obtain ⟨h1, h2⟩ := hcb
      have hws : isJSONWS c = false := by
        simp only [isJSONWS, Bool.or_eq_false_iff, decide_eq_false_iff_not]
        refine ⟨⟨⟨?_, ?_⟩, ?_⟩, ?_⟩ <;> rintro rfl <;> revert h1 h2 <;> decide
      have hb1 : ¬(c = lbrace) := by rintro rfl; revert h2; decide
      have hb2 : ¬(c = '[') := by rintro rfl; revert h2; decide
      have hb3 : ¬(c = '"') := by rintro rfl; revert h1; decide
      have hb4 : ¬(c = 't') := by rintro rfl; revert h2; decide
      have hb5 : ¬(c = 'f') := by rintro rfl; revert h2; decide
      have hb6 : ¬(c = 'n') := by rintro rfl; revert h2; decide
      show parseVal ((String.mk (c :: cs)).length + 1) (c :: cs) = _
      have hlen : (String.mk (c :: cs)).length + 1 = cs.length + 2 := rfl
      rw [hlen]
      simp [parseVal, List.dropWhile, hws, hb1, hb2, hb3, hb4, hb5, hb6, hc,
        parseNum_digits c cs hc h0 hcs]
    · rfl

/-- C6 witness: the 30-digit literal body reaches the function intact as
`JsonVal.num`, and the truncated body yields `ErrDecode` wrapping the
codec's error without an invocation. -/
theorem decode_iff_data_param_witness :
    invokedEvents (serveHTTP hEcho 0 reqBigNum).events =
      [Event.invoked ([ArgVal.ctxArg (mkCtx 0 reqBigNum)] ++
        [ArgVal.dataArg (JsonVal.num "123456789012345678901234567890")])] ∧
    ((serveHTTP hEcho 0 reqBadJSON).failure =
       some (GoError.errDecode (GoError.jsonSyntax "unexpected end of JSON input")) ∧
     invokedEvents (serveHTTP hEcho 0 reqBadJSON).events = []) := by
  constructor
  · have h₁ := ((decode_iff_data_param hEcho 0 reqBigNum rfl rfl).2.1 tIn rfl).1
      (JsonVal.num "123456789012345678901234567890") [] rfl
    simpa using h₁
  · exact ((decode_iff_data_param hEcho 0 reqBadJSON rfl rfl).2.1 tIn rfl).2
      "unexpected end of JSON input" rfl

/-! ## Claim C9 -/

/-- C9 (amended): whenever one complete JSON document parses from the
front of the request body, decoding succeeds with exactly that first
value — the remaining bytes are left unread — and the request proceeds to
invocation.  Arbitrary trailing bytes are not always harmless, though:
bytes that extend the final token of a number or keyword document (e.g.
document `1` with trailing `e`) change what the decoder reads and can
produce a DecodeError; after a self-terminating document (object, array,
string) any trailing bytes are ignored. -/
theorem first_document_decoded (h : JsonHandler) (wid : Nat) (req : HttpRequest)
    (hm : req.method = "POST")
    (hct : parseMediaType (headerGet req.contentType) = ("application/json", false))
    (t : GoType) (harg : h.argType = some t)
    (v : JsonVal) (rest : List Char)
    (hdec : decodeOneJson req.body = Except.ok (v, rest)) :
    invokedEvents (serveHTTP h wid req).events =
      [Event.invoked ((if h.hasCtx then [ArgVal.ctxArg (mkCtx wid req)] else []) ++
        [ArgVal.dataArg v])] := by
  rw [serveHTTP_postJSON h wid req hm hct, harg, hdec]
  exact invokePhase_invoked h (mkCtx wid req) _

/-- C9 counterexample: `1` is one complete JSON document of the declared
type, yet the body `1` followed by the arbitrary trailing byte `e` fails
to decode (the decoder reads `1e` as a single malformed numeric token),
DecodeError is produced, and the function is never invoked. -/
theorem first_document_decoded_cex :
    decodeOneJson "1" = Except.ok (JsonVal.num "1", []) ∧
    (serveHTTP hEcho 0 reqOneE).failure =
      some (GoError.errDecode
        (GoError.jsonSyntax "invalid character in exponent of numeric literal")) ∧
    invokedEvents (serveHTTP hEcho 0 reqOneE).events = [] :=
  ⟨rfl, rfl, rfl⟩

/-- C9 witness: an object document followed by trailing bytes `xyz`
decodes to the object alone and reaches the function. -/
theorem first_document_decoded_witness :
    invokedEvents (serveHTTP hEcho 0 reqObjTrailing).events =
      [Event.invoked ((if hEcho.hasCtx then [ArgVal.ctxArg (mkCtx 0 reqObjTrailing)] else []) ++
        [ArgVal.dataArg (JsonVal.obj [("a", JsonVal.num "1")])])] :=
  first_document_decoded hEcho 0 reqObjTrailing rfl rfl tIn rfl
    (JsonVal.obj [("a", JsonVal.num "1")]) "xyz".toList rfl

/-! ## Claim C10 -/

/-- C10 (amended): a POST request whose Content-Type is absent or fails
media-type parsing takes the same `ErrNotJSON` path as a mismatched media
type and terminates through ErrorHandling without decoding or invoking;
the observed type is empty when the media type itself is absent or
malformed (in particular for an absent header), but when only the
parameters are malformed the parser returns the parsed media type
alongside the error, so `ErrNotJSON` then carries that non-empty type. -/
theorem unparsable_content_type (h : JsonHandler) (wid : Nat) (req : HttpRequest)
    (hm : req.method = "POST")
    (hct : (parseMediaType (headerGet req.contentType)).2 = true) :
    (serveHTTP h wid req).failure =
      some (GoError.notJSON (parseMediaType (headerGet req.contentType)).1) ∧
    invokedEvents (serveHTTP h wid req).events = [] ∧
    (headerGet req.contentType = "" →
      (parseMediaType (headerGet req.contentType)).1 = "") := by
  rw [serveHTTP_badCT h wid req hm (Or.inl hct)]
  refine ⟨rfl, ?_, ?_⟩
  · cases hOE : h.hasOnError <;> simp [handleErr, hOE, invokedEvents]
  · intro h0
    rw [h0]
    rfl

/-- C10 counterexample: `application/json; foo` fails only in its
parameters; Go's media-type parser returns the parsed type together with
the error, so the produced `ErrNotJSON` carries the non-empty observed
type `application/json`, not the empty string the claim asserts. -/
theorem unparsable_content_type_cex :
    parseMediaType "application/json; foo" = ("application/json", true) ∧
    (serveHTTP hNoResult 0 reqBadParam).failure =
      some (GoError.notJSON "application/json") ∧
    ¬("application/json" = "") :=
  ⟨rfl, rfl, by decide⟩

/-- C10 witness: an absent Content-Type header takes the `ErrNotJSON`
path with an empty observed type and no invocation. -/
theorem unparsable_content_type_witness :
    (serveHTTP hNoResult 0 reqNoCT).failure = some (GoError.notJSON "") ∧
    invokedEvents (serveHTTP hNoResult 0 reqNoCT).events = [] ∧
    (parseMediaType (headerGet reqNoCT.contentType)).1 = "" := by
  have h₁ := unparsable_content_type hNoResult 0 reqNoCT rfl rfl
  exact ⟨h₁.1, h₁.2.1, h₁.2.2 rfl⟩

/-! ## Claim C8 -/

/-- `ctx.Value(k)` is `nil` when no wrapping stored anything under `k`. -/
theorem ctxValue_none (ctx : Context) (k : CtxKey) (hk : hasCtxKey ctx k = false) :
    ctxValue ctx k = none := by
  induction ctx with
  | nil => rfl
  | cons p rest ih =>
    obtain ⟨k₂, v⟩ := p
    by_cases hkk : k₂ = k
    · simp [hasCtxKey, hkk] at hk
    · simp only [hasCtxKey, hkk, if_false] at hk
      simp only [ctxValue, hkk, if_false]
      exact ih hk

/-- C8: applied to a context with no entry under the private key —
e.g. a context from outside a pipeline-served request — `Request` and
`Response` return `nil` rather than failing; applied to the pipeline's
adorned context, which is exactly the context every invocation and every
sink call carries, they return that request's request object and its
response-writer handle. -/
theorem carrier_accessors :
    (∀ ctx : Context, hasCtxKey ctx CtxKey.reqK = false → Request ctx = none) ∧
    (∀ ctx : Context, hasCtxKey ctx CtxKey.respK = false → Response ctx = none) ∧
    (∀ (wid : Nat) (req : HttpRequest),
       Request (mkCtx wid req) = some req.toData ∧
       Response (mkCtx wid req) = some wid) ∧
    (∀ (h : JsonHandler) (wid : Nat) (req : HttpRequest),
       (∀ args c, Event.invoked args ∈ (serveHTTP h wid req).events →
          ArgVal.ctxArg c ∈ args → c = mkCtx wid req) ∧
       (∀ c e, Event.sinkCalled c e ∈ (serveHTTP h wid req).events →
          c = mkCtx wid req)) := by
  refine ⟨?_, ?_, ?_, ?_⟩
  · intro ctx hk
    unfold Request
    rw [ctxValue_none ctx CtxKey.reqK hk]
  · intro ctx hk
    unfold Response
    rw [ctxValue_none ctx CtxKey.respK hk]
  · intro wid req
    exact ⟨rfl, rfl⟩
  · intro h wid req
    rcases serveHTTP_cases h wid req with ⟨e, pre, hpre, heq⟩ | ⟨args₀, hco₀, heq⟩ <;>
      rw [heq]
    · constructor
      · intro args c hmem hc
        rcases hpre with rfl | ⟨args₂, rfl, hco⟩ <;>
          cases hOE : h.hasOnError <;> simp [handleErr, hOE] at hmem
        · subst hmem
          exact hco c hc
        · subst hmem
          exact hco c hc
      · intro c e₂ hmem
        rcases hpre with rfl | ⟨args₂, rfl, _⟩ <;>
          cases hOE : h.hasOnError <;> simp [handleErr, hOE] at hmem
        · exact hmem.1
        · exact hmem.1
    · constructor
      · intro args c hmem hc
        cases hres : h.resultType <;> simp [successPhase, hres] at hmem <;>
          · subst hmem
            exact hco₀ c hc
      · intro c e₂ hmem
        cases hres : h.resultType <;> simp [successPhase, hres] at hmem

/-- C8 witness: a foreign context yields `nil` from both accessors; the
adorned context of a concrete request yields its request data and writer
handle. -/
theorem carrier_accessors_witness :
    Request [(CtxKey.otherK 7, CtxVal.otherV 3)] = none ∧
    Response [] = none ∧
    Request (mkCtx 5 reqEcho) = some reqEcho.toData ∧
    Response (mkCtx 5 reqEcho) = some 5 :=
  ⟨carrier_accessors.1 [(CtxKey.otherK 7, CtxVal.otherV 3)] rfl,
   carrier_accessors.2.1 [] rfl,
   (carrier_accessors.2.2.1 5 reqEcho).1,
   (carrier_accessors.2.2.1 5 reqEcho).2⟩
